import Mathlib

/-!
# Verification of the gb-emu Game Boy emulator core

Shallow embedding, in Lean 4, of the subsystems of the `gb-emu` emulator that
the specification's checkable claims talk about:

* the DIV/TIMA timer (`src/emulator/timer.rs`),
* the OAM DMA engine (`src/emulator/dma.rs`),
* the MBC1 cartridge banking and battery state (`src/emulator/cartridge.rs`),
* the CPU interrupt machinery, the `step` skeleton, flag updates, and the
  stack operations (`src/emulator/cpu.rs`, `src/emulator/cpu/interrupts.rs`).

Machine integers (`u8`/`u16`) are embedded as `Nat` with explicit `% 256` /
`% 65536` (or masks) exactly where the Rust code wraps; Rust's unchecked
`+` on `u16` (which is a program error on overflow) is embedded as `Option`.
Rust `match`/`if` chains become Lean `if` chains in source order.
-/

namespace GB

/-! ## Bit-arithmetic bridge lemmas

These connect the bitwise operators used by the source (`&`, `|`, `^`, `<<`)
with the `/`, `%` arithmetic that `omega` understands. -/

lemma and_two_pow_eq (x i : Nat) : x &&& 2 ^ i = x / 2 ^ i % 2 * 2 ^ i := by
  rw [Nat.and_two_pow, Nat.toNat_testBit]

lemma and_two_pow_ne_zero (x i : Nat) : (x &&& 2 ^ i ≠ 0) ↔ x.testBit i = true := by
  rw [Nat.and_two_pow]
  cases h : x.testBit i
  · simp
  · simpa using (pow_pos (show (0 : ℕ) < 2 by norm_num) i).ne'

lemma and_two_pow_eq_zero (x i : Nat) : (x &&& 2 ^ i = 0) ↔ x.testBit i = false := by
  rw [Nat.and_two_pow]
  cases h : x.testBit i <;>
    simp [(pow_pos (show (0 : ℕ) < 2 by norm_num) i).ne']

lemma or_and_distrib (a b m : Nat) : (a ||| b) &&& m = (a &&& m) ||| (b &&& m) := by
  apply Nat.eq_of_testBit_eq
  intro i
  simp only [Nat.testBit_and, Nat.testBit_or]
  cases a.testBit i <;> cases b.testBit i <;> cases m.testBit i <;> rfl

/-- A window of `m` bits starting at bit `n`, as arithmetic:
`x & ((2^m - 1) << n)`. -/
lemma and_mask_window (x m n : Nat) :
    x &&& ((2 ^ m - 1) <<< n) = x / 2 ^ n % 2 ^ m * 2 ^ n := by
  apply Nat.eq_of_testBit_eq
  intro i
  have hrhs : x / 2 ^ n % 2 ^ m * 2 ^ n = ((x >>> n) % 2 ^ m) <<< n := by
    rw [Nat.shiftLeft_eq, Nat.shiftRight_eq_div_pow]
  rw [hrhs, Nat.testBit_and, Nat.testBit_shiftLeft, Nat.testBit_shiftLeft]
  rcases Nat.lt_or_ge i n with hi | hi
  · simp [Nat.not_le.mpr hi]
  · rw [Nat.testBit_two_pow_sub_one, Nat.testBit_mod_two_pow]
    have hsr : (x >>> n).testBit (i - n) = x.testBit i := by
      rw [Nat.testBit_shiftRight, Nat.add_sub_cancel' hi]
    rw [hsr]
    simp only [Nat.le_of_lt, hi, decide_eq_true_eq, Bool.true_and,
      decide_True]
    cases x.testBit i <;> simp [Bool.and_comm]

/-- Bits 13–15 of a value, as arithmetic: `x & 0xE000`. -/
lemma and_57344_eq (x : Nat) : x &&& 57344 = x / 8192 % 8 * 8192 := by
  have := and_mask_window x 3 13
  norm_num at this
  exact this

/-! ## Timer (`src/emulator/timer.rs`)

State of the `Timer` struct: the 16-bit internal divider `div` (an
`AtomicU16` in the source), and the 8-bit `tima`, `tma`, `tac` registers. -/

structure Timer where
  div : Nat
  tima : Nat
  tma : Nat
  tac : Nat
  deriving Repr, DecidableEq

/-- `Timer::is_enabled`: `(self.tac & 0b100) != 0`. -/
def Timer.is_enabled (t : Timer) : Bool := decide (t.tac &&& 0b100 ≠ 0)

/-- The `timer_update` flag computed inside `Timer::tick`: a falling edge of
the DIV bit selected by `tac & 0b11`, across the `fetch_add(1)` increment.
`prev_div` is `t.div`; the post-increment value is `(t.div + 1) % 65536`. -/
def Timer.timer_update (t : Timer) : Bool :=
  let new_div := (t.div + 1) % 65536
  let sel := t.tac &&& 0b11
  if sel = 0 then
    decide (t.div &&& (1 <<< 9) ≠ 0) && decide (new_div &&& (1 <<< 9) = 0)
  else if sel = 1 then
    decide (t.div &&& (1 <<< 3) ≠ 0) && decide (new_div &&& (1 <<< 3) = 0)
  else if sel = 2 then
    decide (t.div &&& (1 <<< 5) ≠ 0) && decide (new_div &&& (1 <<< 5) = 0)
  else if sel = 3 then
    decide (t.div &&& (1 <<< 7) ≠ 0) && decide (new_div &&& (1 <<< 7) = 0)
  else false

/-- The guard of the TIMA-advance branch in `Timer::tick`:
`timer_update && self.is_enabled()`. -/
def Timer.advances (t : Timer) : Bool := t.timer_update && t.is_enabled

/-- `Timer::tick`. Increments DIV (wrapping at 2^16); when the falling-edge
flag and the enable bit are both set, increments TIMA (wrapping at 2^8) and,
if the *post-increment* TIMA equals `0xFF`, reloads TIMA from TMA and returns
`true` (interrupt request). -/
def Timer.tick (t : Timer) : Timer × Bool :=
  let t' := { t with div := (t.div + 1) % 65536 }
  if t.advances then
    let t2 := { t' with tima := (t'.tima + 1) % 256 }
    if t2.tima = 0xFF then ({ t2 with tima := t2.tma }, true)
    else (t2, false)
  else (t', false)

/-- The timer after one tick, discarding the interrupt-request flag. -/
def Timer.tickT (t : Timer) : Timer := (t.tick).1

/-- `n` consecutive timer ticks. -/
def Timer.tickN (t : Timer) : Nat → Timer
  | 0 => t
  | n + 1 => (t.tickN n).tickT

/-- Modelled from the spec: the TIMA period selected by `TAC`'s low two bits
(00 → 1024 T-cycles, 01 → 16, 10 → 64, 11 → 256). -/
def tacPeriodSpec (tac : Nat) : Nat :=
  let sel := tac &&& 0b11
  if sel = 0 then 1024
  else if sel = 1 then 16
  else if sel = 2 then 64
  else 256

/-- Modelled from the spec: the DIV bit watched for a falling edge, per
`TAC`'s low two bits (00 → bit 9, 01 → bit 3, 10 → bit 5, 11 → bit 7). -/
def divBitSpec (tac : Nat) : Nat :=
  let sel := tac &&& 0b11
  if sel = 0 then 9
  else if sel = 1 then 3
  else if sel = 2 then 5
  else 7

lemma sel_lt_four (tac : Nat) : tac &&& 0b11 < 4 :=
  Nat.lt_of_le_of_lt (Nat.and_le_right) (by norm_num)

lemma and_512_eq (x : Nat) : x &&& 512 = x / 512 % 2 * 512 := by
  have := and_two_pow_eq x 9; norm_num at this; exact this

lemma and_8_eq (x : Nat) : x &&& 8 = x / 8 % 2 * 8 := by
  have := and_two_pow_eq x 3; norm_num at this; exact this

lemma and_32_eq (x : Nat) : x &&& 32 = x / 32 % 2 * 32 := by
  have := and_two_pow_eq x 5; norm_num at this; exact this

lemma and_128_eq (x : Nat) : x &&& 128 = x / 128 % 2 * 128 := by
  have := and_two_pow_eq x 7; norm_num at this; exact this

lemma and_4_eq (x : Nat) : x &&& 4 = x / 4 % 2 * 4 := by
  have := and_two_pow_eq x 2; norm_num at this; exact this

/-- The falling-edge test of `Timer::tick`, restated arithmetically:
the tick advances TIMA exactly when the enable bit is set and the divider is
about to complete a full period of the selected bit. -/
lemma is_enabled_iff (t : Timer) : t.is_enabled = true ↔ t.tac.testBit 2 = true := by
  rw [Timer.is_enabled, decide_eq_true_eq,
    show t.tac &&& 0b100 = t.tac &&& 2 ^ 2 from by norm_num]
  exact and_two_pow_ne_zero t.tac 2

lemma advances_iff (t : Timer) :
    t.advances = true ↔
      (t.tac.testBit 2 = true ∧
        t.div % tacPeriodSpec t.tac = tacPeriodSpec t.tac - 1) := by
  simp only [Timer.advances, Bool.and_eq_true, Timer.timer_update, tacPeriodSpec,
    is_enabled_iff]
  have hsel := sel_lt_four t.tac
  set s := t.tac &&& 0b11 with hs
  interval_cases s <;> norm_num <;>
    [rw [show (1 <<< 9 : Nat) = 512 from rfl, and_512_eq, and_512_eq];
     rw [show (1 <<< 3 : Nat) = 8 from rfl, and_8_eq, and_8_eq];
     rw [show (1 <<< 5 : Nat) = 32 from rfl, and_32_eq, and_32_eq];
     rw [show (1 <<< 7 : Nat) = 128 from rfl, and_128_eq, and_128_eq]] <;>
    (constructor
     · rintro ⟨⟨h1, h2⟩, hP⟩
       exact ⟨hP, by omega⟩
     · rintro ⟨hP, h⟩
       exact ⟨⟨by omega, by omega⟩, hP⟩)

lemma tickT_div (t : Timer) : t.tickT.div = (t.div + 1) % 65536 := by
  cases h : t.advances <;>
    by_cases h2 : ((t.tima + 1) % 256) = 255 <;>
    simp [Timer.tickT, Timer.tick, h, h2]

lemma tickT_tac (t : Timer) : t.tickT.tac = t.tac := by
  cases h : t.advances <;>
    by_cases h2 : ((t.tima + 1) % 256) = 255 <;>
    simp [Timer.tickT, Timer.tick, h, h2]

lemma tickN_div (t : Timer) (hdiv : t.div < 65536) (n : Nat) :
    (t.tickN n).div = (t.div + n) % 65536 := by
  induction n with
  | zero => simp [Timer.tickN, Nat.mod_eq_of_lt hdiv]
  | succ n ih =>
    rw [Timer.tickN, tickT_div, ih]
    omega

lemma tickN_tac (t : Timer) (n : Nat) : (t.tickN n).tac = t.tac := by
  induction n with
  | zero => rfl
  | succ n ih => rw [Timer.tickN, tickT_tac, ih]

/-- C8: `Timer::tick` increments DIV by one (wrapping at 2^16), and advances
TIMA exactly when TAC bit 2 (enable) is set and the DIV bit selected by TAC's
low two bits (00 → bit 9, 01 → bit 3, 10 → bit 5, 11 → bit 7) falls from 1
to 0 across the increment; equivalently, when DIV is at the last position of
the selected period (1024, 16, 64 or 256 ticks). Consequently, while enabled,
TIMA advances on exactly one tick of any window of one full period. -/
theorem C8_theorem (t : Timer) (hdiv : t.div < 65536) :
    ((t.tick).1.div = (t.div + 1) % 65536) ∧
    (t.advances = true ↔
      (t.tac.testBit 2 = true ∧ t.div.testBit (divBitSpec t.tac) = true ∧
        ((t.div + 1) % 65536).testBit (divBitSpec t.tac) = false)) ∧
    (t.advances = true ↔
      (t.tac.testBit 2 = true ∧
        t.div % tacPeriodSpec t.tac = tacPeriodSpec t.tac - 1)) ∧
    (t.is_enabled = true →
      ∃ k, (k < tacPeriodSpec t.tac ∧ (t.tickN k).advances = true) ∧
        ∀ j, j < tacPeriodSpec t.tac → (t.tickN j).advances = true → j = k) := by
  refine ⟨tickT_div t, ?_, advances_iff t, ?_⟩
  · simp only [Timer.advances, Bool.and_eq_true, Timer.timer_update, divBitSpec,
      is_enabled_iff]
    have hsel := sel_lt_four t.tac
    set s := t.tac &&& 0b11 with hs
    interval_cases s <;> norm_num <;>
      [rw [show (1 <<< 9 : Nat) = 512 from rfl, and_512_eq, and_512_eq];
       rw [show (1 <<< 3 : Nat) = 8 from rfl, and_8_eq, and_8_eq];
       rw [show (1 <<< 5 : Nat) = 32 from rfl, and_32_eq, and_32_eq];
       rw [show (1 <<< 7 : Nat) = 128 from rfl, and_128_eq, and_128_eq]] <;>
      simp only [Nat.testBit_to_div_mod, decide_eq_true_eq, decide_eq_false_iff_not] <;>
      (constructor
       · rintro ⟨⟨h1, h2⟩, hP⟩
         exact ⟨hP, by omega, by omega⟩
       · rintro ⟨hP, h3, h4⟩
         exact ⟨⟨by omega, by omega⟩, hP⟩)
  · intro hen
    have htb := (is_enabled_iff t).mp hen
    have hadv : ∀ j : Nat, ((t.tickN j).advances = true) ↔
        ((t.div + j) % 65536) % tacPeriodSpec t.tac = tacPeriodSpec t.tac - 1 := by
      intro j
      rw [advances_iff, tickN_tac, tickN_div t hdiv]
      simp [htb]
    have hsel := sel_lt_four t.tac
    simp only [tacPeriodSpec] at hadv ⊢
    set s := t.tac &&& 0b11 with hs
    interval_cases s <;> norm_num at hadv ⊢
    · exact ⟨1023 - t.div % 1024, ⟨by omega, (hadv _).mpr (by omega)⟩,
        fun j hj haj => by have := (hadv j).mp haj; omega⟩
    · exact ⟨15 - t.div % 16, ⟨by omega, (hadv _).mpr (by omega)⟩,
        fun j hj haj => by have := (hadv j).mp haj; omega⟩
    · exact ⟨63 - t.div % 64, ⟨by omega, (hadv _).mpr (by omega)⟩,
        fun j hj haj => by have := (hadv j).mp haj; omega⟩
    · exact ⟨255 - t.div % 256, ⟨by omega, (hadv _).mpr (by omega)⟩,
        fun j hj haj => by have := (hadv j).mp haj; omega⟩

/-- Witness for `C8_theorem` at a concrete timer state (TAC = 0b101:
enabled, selector 01 → bit 3 → period 16; DIV = 15 is at the edge). -/
theorem C8_witness :
    ((⟨15, 5, 0, 5⟩ : Timer).div < 65536) ∧
    (((⟨15, 5, 0, 5⟩ : Timer).tick).1.div = 16) :=
  ⟨by decide, (C8_theorem ⟨15, 5, 0, 5⟩ (by decide)).1⟩

/-- Concrete timer state refuting C1: TAC = 0b101 (enabled, bit-3 selector),
DIV = 15 (falling edge of bit 3 on the next tick), TIMA = 0xFF, TMA = 0x42. -/
def timerCex : Timer := ⟨15, 0xFF, 0x42, 0b101⟩

/-- C1 counterexample: on this tick TIMA wraps from `0xFF` to `0` — the claim
says TIMA must be reloaded from TMA (0x42) and the interrupt requested — but
`Timer::tick` leaves TIMA = 0 and returns `false`, because its overflow test
compares the post-increment TIMA against `0xFF` instead of `0`. -/
theorem C1_counterexample :
    timerCex.advances = true ∧ timerCex.tima = 0xFF ∧
    (timerCex.tick).1.tima = 0 ∧ (timerCex.tick).2 = false ∧
    timerCex.tma = 0x42 := by decide

/-- C1 amended: on a tick that advances TIMA, `Timer::tick` reloads TIMA from
TMA and requests the TIMER interrupt exactly when the increment makes TIMA
*reach* `0xFF` (i.e. the advance starts from TIMA = 0xFE) — not when TIMA
wraps from `0xFF` to `0`.  On an advance from `0xFF`, TIMA wraps to `0`
silently: no reload, no interrupt. -/
theorem C1_amended (t : Timer) (htima : t.tima < 256) (hadv : t.advances = true) :
    (((t.tick).2 = true ∧ (t.tick).1.tima = t.tma) ↔ t.tima = 0xFE) ∧
    (t.tima = 0xFE → (t.tick).1.tima = t.tma ∧ (t.tick).2 = true) ∧
    (t.tima ≠ 0xFE → (t.tick).1.tima = (t.tima + 1) % 256 ∧ (t.tick).2 = false) ∧
    (t.tima = 0xFF → (t.tick).1.tima = 0 ∧ (t.tick).2 = false) := by
  rw [Timer.tick]
  simp only [hadv, if_true]
  by_cases h : (t.tima + 1) % 256 = 0xFF
  · have ht : t.tima = 0xFE := by omega
    simp [h, ht]
  · have ht : t.tima ≠ 0xFE := by omega
    by_cases hff : t.tima = 0xFF
    · simp [h, ht, hff]
    · simp [h, ht, hff]

/-- Witness for `C1_amended` at a concrete advancing tick (TIMA = 5). -/
theorem C1_witness :
    ((⟨15, 5, 9, 5⟩ : Timer).tima < 256 ∧ (⟨15, 5, 9, 5⟩ : Timer).advances = true) ∧
    (((⟨15, 5, 9, 5⟩ : Timer).tick).1.tima = 6 ∧ ((⟨15, 5, 9, 5⟩ : Timer).tick).2 = false) :=
  ⟨⟨by decide, by decide⟩,
    (C1_amended ⟨15, 5, 9, 5⟩ (by decide) (by decide)).2.2.1 (by decide)⟩

/-! ## Cartridge / MBC1 (`src/emulator/cartridge.rs`)

The banking state of the `Cartridge` struct.  The source keeps raw pointers
(`rom_bank_x` into `rom`, `ram_bank` into one of `ram_banks`); they are
embedded as bank indices, with a `None` entry of `ram_banks` standing for a
null pointer (an unallocated bank).  RAM-bank contents are functions from
byte offset to byte. -/

structure Cartridge where
  cartridge_type : Nat
  ram_enabled : Bool
  ram_banking : Bool
  rom_bank_x : Nat
  banking_mode : Nat
  rom_bank_value : Nat
  ram_bank_value : Nat
  ram_bank : Nat
  ram_banks : Nat → Option (Nat → Nat)
  has_battery : Bool
  need_save : Bool
  rom : Nat → Nat

/-- `Cartridge::mbc1`: cartridge type is 0x01, 0x02 or 0x03. -/
def Cartridge.mbc1 (c : Cartridge) : Bool :=
  decide (c.cartridge_type = 0x01) || decide (c.cartridge_type = 0x02) ||
    decide (c.cartridge_type = 0x03)

/-- `Cartridge::write`.  The Rust `data` variable is mutable (the ROM-bank
branch coerces 0 to 1 and masks to 5 bits); it is threaded through as
`data1`.  `save_battery` inside the 0x4000 branch only performs file IO, so
it has no effect on the cartridge state.  The early `return`s of the source
(non-MBC1, RAM-enable latch, disabled RAM, null RAM bank) skip the final
`need_save` update exactly as the source does. -/
def Cartridge.write (c : Cartridge) (address data : Nat) : Cartridge :=
  if c.mbc1 = false then c
  else if address < 0x2000 then
    { c with ram_enabled := decide ((data &&& 0x0F) = 0x0A) }
  else
    let (c1, data1) :=
      if address &&& 0xE000 = 0x2000 then
        let d := if data = 0 then 1 else data
        let d := d &&& 0b11111
        ({ c with rom_bank_value := d, rom_bank_x := d }, d)
      else (c, data)
    let c2 :=
      if address &&& 0xE000 = 0x4000 then
        let c' := { c1 with ram_bank_value := data1 &&& 0b11 }
        if c'.ram_banking then
          { c' with ram_bank := c'.ram_bank_value }
        else
          { c' with ram_bank := c'.ram_bank_value &&& 0b11 }
      else c1
    let c3 :=
      if address &&& 0xE000 = 0x6000 then
        let c' := { c2 with banking_mode := data1 &&& 1 }
        let c' := { c' with ram_banking := decide (c'.banking_mode > 0) }
        if c'.ram_banking then { c' with ram_bank := c'.ram_bank_value } else c'
      else c2
    if address &&& 0xE000 = 0xA000 then
      if c3.ram_enabled = false then c3
      else
        match c3.ram_banks c3.ram_bank with
        | none => c3
        | some bank =>
          let bank' := fun i => if i = address - 0xA000 then data1 else bank i
          let c4 := { c3 with
            ram_banks := fun j => if j = c3.ram_bank then some bank' else c3.ram_banks j }
          if c4.has_battery then { c4 with need_save := true } else c4
    else
      if c3.has_battery then { c3 with need_save := true } else c3

/-- `Cartridge::read`. -/
def Cartridge.read (c : Cartridge) (address : Nat) : Nat :=
  if c.mbc1 = false ∨ address < 0x4000 then c.rom address
  else if address &&& 0xE000 = 0xA000 then
    if c.ram_enabled = false then 0xFF
    else
      match c.ram_banks c.ram_bank with
      | none => 0xFF
      | some bank => bank (address - 0xA000)
  else c.rom (c.rom_bank_x * 0x4000 + (address - 0x4000))

/-- `Cartridge::save_battery`.  Takes `&self`: it writes the first 0x2000
bytes of `ram_banks[0]` to the `<title>.sav` file (returned here as the file
image) and leaves the cartridge state untouched. -/
def Cartridge.save_battery (c : Cartridge) : Option (Nat → Nat) × Cartridge :=
  (c.ram_banks 0, c)

lemma and_31_eq (x : Nat) : x &&& 31 = x % 32 := by
  have := Nat.and_pow_two_sub_one_eq_mod x 5; norm_num at this; exact this

/-- Concrete MBC1 cartridge for the C3 counterexample.  Its ROM is labelled
by bank number (`rom a = a / 0x4000`), so a read in the switchable window
reveals which bank is mapped there. -/
def c3cart : Cartridge :=
  { cartridge_type := 0x01, ram_enabled := false, ram_banking := false,
    rom_bank_x := 1, banking_mode := 0, rom_bank_value := 1,
    ram_bank_value := 0, ram_bank := 0, ram_banks := fun _ => none,
    has_battery := false, need_save := false, rom := fun a => a / 0x4000 }

/-- C3 counterexample: writing `0x20` (a non-zero byte whose low five bits
are all zero) to the ROM-bank-select region makes the selected bank number
0, and the switchable window 0x4000–0x7FFF then resolves to bank 0 — the
claim says the bank is never 0.  The zero-coercion of the source runs
*before* the 5-bit mask, so it does not catch this value. -/
theorem C3_counterexample :
    (c3cart.write 0x2000 0x20).rom_bank_value = 0 ∧
    (c3cart.write 0x2000 0x20).rom_bank_x = 0 ∧
    (c3cart.write 0x2000 0x20).read 0x4000 = 0 ∧
    c3cart.read 0x4000 = 1 := by decide

/-- C3 amended: a write of `data` to 0x2000–0x3FFF selects ROM bank
`(if data = 0 then 1 else data) % 32`: a write of 0 is still coerced to
bank 1, and the result is always below 32 — but the selected bank is 0
(and the window 0x4000–0x7FFF resolves to bank 0) exactly when `data` is a
non-zero multiple of 32 (0x20, 0x40, …). -/
theorem C3_amended (c : Cartridge) (address data : Nat)
    (hm : c.mbc1 = true) (h1 : 0x2000 ≤ address) (h2 : address < 0x4000) :
    (c.write address data).rom_bank_value = (if data = 0 then 1 else data) % 32 ∧
    ((c.write address data).rom_bank_value = 0 ↔ (data ≠ 0 ∧ data % 32 = 0)) ∧
    (data = 0 → (c.write address data).rom_bank_value = 1) ∧
    (c.write address data).rom_bank_value < 32 ∧
    (c.write address data).rom_bank_x = (c.write address data).rom_bank_value := by
  have e1 : ¬ (address < 0x2000) := by omega
  have emask : address &&& 0xE000 = 0x2000 := by
    rw [show (0xE000 : Nat) = 57344 from rfl, and_57344_eq]
    omega
  have hv : (c.write address data).rom_bank_value =
      (if data = 0 then 1 else data) % 32 ∧
      (c.write address data).rom_bank_x = (c.write address data).rom_bank_value := by
    rw [Cartridge.write, hm]
    simp only [Bool.true_eq_false, if_false, e1, if_neg, not_false_iff, emask]
    norm_num [and_31_eq]
    split_ifs <;> simp [and_31_eq]
  refine ⟨hv.1, ?_, ?_, ?_, hv.2⟩
  · rw [hv.1]
    by_cases h : data = 0 <;> simp [h] <;> omega
  · intro h; rw [hv.1, if_pos h]
  · rw [hv.1]
    exact Nat.mod_lt _ (by norm_num)

/-- Witness for `C3_amended`: writing 0 selects bank 1. -/
theorem C3_witness :
    (c3cart.mbc1 = true ∧ (0x2000 : Nat) ≤ 0x3000 ∧ (0x3000 : Nat) < 0x4000) ∧
    (c3cart.write 0x3000 0).rom_bank_value = 1 :=
  ⟨⟨by decide, by decide, by decide⟩,
    (C3_amended c3cart 0x3000 0 (by decide) (by decide) (by decide)).2.2.1 rfl⟩

/-- Concrete battery-backed MBC1 cartridge (type 0x03) with RAM enabled and
bank 0 allocated, for the C4 counterexample. -/
def c4cart : Cartridge :=
  { cartridge_type := 0x03, ram_enabled := true, ram_banking := false,
    rom_bank_x := 1, banking_mode := 0, rom_bank_value := 1,
    ram_bank_value := 0, ram_bank := 0,
    ram_banks := fun j => if j = 0 then some (fun _ => 0) else none,
    has_battery := true, need_save := false, rom := fun a => a / 0x4000 }

/-- C4 counterexample: a write to external RAM sets the dirty flag, but
`save_battery` — which takes `&self` and only writes the save file — leaves
`need_save` equal to `true`; the claim says it returns `false` after saving.
The flag is only ever reset when a ROM is loaded. -/
theorem C4_counterexample :
    (c4cart.write 0xA000 0x12).need_save = true ∧
    ((c4cart.write 0xA000 0x12).save_battery).2.need_save = true := by decide

/-- C4 amended: on a battery-backed cartridge every successful external-RAM
write (RAM enabled, allocated bank selected) leaves `need_save()` returning
`true`; `save_battery()` writes the RAM image to the save file but does not
modify the cartridge state at all, so `need_save()` still returns `true`
afterwards (the flag is cleared only by `load`). -/
theorem C4_amended (c : Cartridge) (address data : Nat)
    (hm : c.mbc1 = true) (hb : c.has_battery = true)
    (h1 : 0xA000 ≤ address) (h2 : address < 0xC000)
    (hen : c.ram_enabled = true)
    (hbank : (c.ram_banks c.ram_bank).isSome = true) :
    (c.write address data).need_save = true ∧
    (∀ c' : Cartridge, (Cartridge.save_battery c').2 = c') := by
  constructor
  · have e1 : ¬ (address < 0x2000) := by omega
    have emask : address &&& 0xE000 = 0xA000 := by
      rw [show (0xE000 : Nat) = 57344 from rfl, and_57344_eq]
      omega
    obtain ⟨bank, hbk⟩ := Option.isSome_iff_exists.mp hbank
    rw [Cartridge.write, hm]
    simp only [Bool.true_eq_false, if_false, e1, if_neg, not_false_iff, emask]
    norm_num [hen, hbk, hb]
  · intro c'; rfl

/-- Witness for `C4_amended` at the concrete battery cartridge. -/
theorem C4_witness :
    (c4cart.mbc1 = true ∧ c4cart.has_battery = true ∧ c4cart.ram_enabled = true ∧
      (c4cart.ram_banks c4cart.ram_bank).isSome = true) ∧
    (c4cart.write 0xB123 7).need_save = true :=
  ⟨⟨by decide, by decide, by decide, by decide⟩,
    (C4_amended c4cart 0xB123 7 (by decide) (by decide) (by decide) (by decide)
      (by decide) (by decide)).1⟩

/-! ## OAM DMA (`src/emulator/dma.rs`)

State of the `DMA` struct.  `DMA::tick` reads one byte through the bus and
writes it into OAM via `ppu.oam_write(self.byte, …)`; the bus is embedded as
a read function `bus : Nat → Nat` and OAM as `oam : Nat → Nat`, indexed by
the DMA byte counter (PPU `oam_write` stores byte `i` at OAM offset `i` for
`i < 0xA0`). -/

structure DMA where
  active : Bool
  byte : Nat
  value : Nat
  start_delay : Nat
  deriving Repr, DecidableEq

/-- `DMA::start`: latch the written page, reset the byte counter and arm the
two-cycle start delay. -/
def DMA.start (start : Nat) : DMA :=
  { active := true, byte := 0, value := start, start_delay := 2 }

/-- `DMA::tick`: nothing while inactive; burn the start delay; otherwise copy
`OAM[byte] ← bus((value * 0x100) + byte)`, advance `byte`, and stay active
while `byte < 0xA0`. -/
def DMA.tick (d : DMA) (bus oam : Nat → Nat) : DMA × (Nat → Nat) :=
  if d.active = false then (d, oam)
  else if d.start_delay > 0 then ({ d with start_delay := d.start_delay - 1 }, oam)
  else
    let addr := d.value * 0x100 + d.byte
    let oam' := fun i => if i = d.byte then bus addr else oam i
    ({ d with byte := d.byte + 1, active := decide (d.byte + 1 < 0xA0) }, oam')

/-- `n` consecutive DMA ticks against a fixed bus. -/
def DMA.tickN (bus : Nat → Nat) : Nat → DMA × (Nat → Nat) → DMA × (Nat → Nat)
  | 0, p => p
  | n + 1, p =>
    let q := DMA.tickN bus n p
    q.1.tick bus q.2

lemma dma_tickN_invariant (bus oam : Nat → Nat) (P : Nat) (k : Nat) (hk : k ≤ 160) :
    DMA.tickN bus (2 + k) (DMA.start P, oam) =
      ({ active := decide (k < 160), byte := k, value := P, start_delay := 0 },
        fun i => if i < k then bus (P * 0x100 + i) else oam i) := by
  induction k with
  | zero =>
    apply Prod.ext
    · simp [DMA.tickN, DMA.tick, DMA.start]
    · funext i
      simp [DMA.tickN, DMA.tick, DMA.start]
  | succ k ih =>
    have hk' : k ≤ 160 := by omega
    have hklt : k < 160 := by omega
    rw [show 2 + (k + 1) = (2 + k) + 1 from by omega, DMA.tickN, ih hk']
    apply Prod.ext
    · simp [DMA.tick, hklt]
    · funext i
      have hact : decide (k < 160) = true := by simp [hklt]
      simp only [DMA.tick, hact, Bool.true_eq_false, if_false, gt_iff_lt,
        Nat.lt_irrefl, if_neg, not_false_iff]
      norm_num
      by_cases h1 : i = k
      · subst h1; simp
      · by_cases h2 : i < k
        · have h3 : i < k + 1 := by omega
          simp [h1, h2, h3]
        · have h3 : ¬ (i < k + 1) := by omega
          simp [h1, h2, h3]

/-- C9: after `DMA::start(P)` the engine is active with byte index 0 and a
2-M-cycle delay; the first two ticks copy nothing; after the delay, the
`k`-th copy tick has transferred bytes `0..k` in increasing order, reading
`bus((P << 8) | i)` into `OAM[i]`, and the engine deactivates exactly when
the byte index reaches 0xA0 — so after 162 ticks all 160 OAM bytes equal the
source bytes and the engine is inactive (after 161 it is still active). -/
theorem C9_theorem (bus oam : Nat → Nat) (P : Nat) :
    ((DMA.start P).active = true ∧ (DMA.start P).byte = 0 ∧
      (DMA.start P).start_delay = 2) ∧
    ((DMA.tickN bus 1 (DMA.start P, oam)).2 = oam ∧
      (DMA.tickN bus 2 (DMA.start P, oam)).2 = oam) ∧
    (∀ k, k ≤ 160 → DMA.tickN bus (2 + k) (DMA.start P, oam) =
      ({ active := decide (k < 160), byte := k, value := P, start_delay := 0 },
        fun i => if i < k then bus (P * 0x100 + i) else oam i)) ∧
    ((DMA.tickN bus 161 (DMA.start P, oam)).1.active = true) ∧
    ((DMA.tickN bus 162 (DMA.start P, oam)).1.active = false ∧
      (DMA.tickN bus 162 (DMA.start P, oam)).1.byte = 0xA0 ∧
      (∀ i, i < 160 → (DMA.tickN bus 162 (DMA.start P, oam)).2 i = bus (P * 0x100 + i)) ∧
      (∀ i, 160 ≤ i → (DMA.tickN bus 162 (DMA.start P, oam)).2 i = oam i)) := by
  refine ⟨⟨rfl, rfl, rfl⟩, ⟨?_, ?_⟩, dma_tickN_invariant bus oam P, ?_, ?_⟩
  · funext i; simp [DMA.tickN, DMA.tick, DMA.start]
  · funext i; simp [DMA.tickN, DMA.tick, DMA.start]
  · have h := dma_tickN_invariant bus oam P 159 (by omega)
    rw [show (161 : Nat) = 2 + 159 from rfl, h]
    simp
  · have h := dma_tickN_invariant bus oam P 160 (by omega)
    rw [show (162 : Nat) = 2 + 160 from rfl, h]
    refine ⟨by simp, rfl, ?_, ?_⟩
    · intro i hi; simp [hi]
    · intro i hi; simp [Nat.not_lt.mpr hi]

/-- Witness for `C9_theorem`: a concrete DMA transfer from page 0xC0 over a
bus that returns the low byte of the address. -/
theorem C9_witness :
    (5 : Nat) < 160 ∧
    (DMA.tickN (fun a => a % 256) 162 (DMA.start 0xC0, fun _ => 0)).2 5 = 5 :=
  ⟨by decide,
    by
      have h := (C9_theorem (fun a => a % 256) (fun _ => 0) 0xC0).2.2.2.2.2.2.1 5
        (by decide)
      rw [h]⟩

/-! ## CPU (`src/emulator/cpu.rs`, `src/emulator/cpu/interrupts.rs`)

The CPU context: the register file, the interrupt state, and — because
`bus_read`/`bus_write` are free functions over the global context in the
source — the byte-addressed bus contents, embedded as `mem : Nat → Nat`. -/

structure Registers where
  a : Nat
  f : Nat
  b : Nat
  c : Nat
  d : Nat
  e : Nat
  h : Nat
  l : Nat
  pc : Nat
  sp : Nat

structure CPU where
  halted : Bool
  interrupt_master_enabled : Bool
  enabling_ime : Bool
  int_flags : Nat
  ie_register : Nat
  registers : Registers
  mem : Nat → Nat

/-- The post-boot register state of the `CPU_CTX` static. -/
def CPU_CTX : CPU :=
  { halted := false, interrupt_master_enabled := false, enabling_ime := false,
    int_flags := 0, ie_register := 0,
    registers := { a := 0x01, f := 0xB0, b := 0x00, c := 0x13,
                   d := 0x00, e := 0xD8, h := 0x01, l := 0x4D,
                   pc := 0x100, sp := 0xFFFE },
    mem := fun _ => 0 }

/-- The flag constants of `cpu.rs`. -/
def Z_FLAG : Nat := 0x80
def N_FLAG : Nat := 0x40
def H_FLAG : Nat := 0x20
def C_FLAG : Nat := 0x10

/-- `CPU::set_flag`: set or clear one flag bit in F (`!flag` is the u8
bitwise complement, `flag ^ 0xFF`). -/
def CPU.set_flag (s : CPU) (flag : Nat) (value : Bool) : CPU :=
  if value then
    { s with registers := { s.registers with f := s.registers.f ||| flag } }
  else
    { s with registers := { s.registers with f := s.registers.f &&& (flag ^^^ 0xFF) } }

/-- `CPU::set_flags`: for each of Z/N/H/C, a non-negative `i8` argument sets
or clears the flag (positive sets), a negative one leaves it unchanged. -/
def CPU.set_flags (s : CPU) (z n h c : Int) : CPU :=
  let s1 := if z ≥ 0 then s.set_flag Z_FLAG (decide (z > 0)) else s
  let s2 := if n ≥ 0 then s1.set_flag N_FLAG (decide (n > 0)) else s1
  let s3 := if h ≥ 0 then s2.set_flag H_FLAG (decide (h > 0)) else s2
  if c ≥ 0 then s3.set_flag C_FLAG (decide (c > 0)) else s3

/-- The register-name enum of `cpu/instruction.rs` (the registers used by
the embedded operations). -/
inductive RegType where
  | RT_NONE
  | RT_A
  | RT_F
  | RT_B
  | RT_C
  | RT_D
  | RT_E
  | RT_H
  | RT_L
  | RT_AF
  | RT_BC
  | RT_DE
  | RT_HL
  | RT_SP
  | RT_PC
  deriving Repr, DecidableEq

open RegType

/-- `CPU::set_register`.  8-bit registers truncate the value (`as u8`);
16-bit pairs split it high/low.  The source's `_` arm (RT_NONE / RT_F)
calls `process::exit`; it is unreachable from the embedded operations and
is mapped to the unchanged state. -/
def CPU.set_register (s : CPU) (reg : RegType) (value : Nat) : CPU :=
  match reg with
  | RT_A => { s with registers := { s.registers with a := value % 256 } }
  | RT_B => { s with registers := { s.registers with b := value % 256 } }
  | RT_C => { s with registers := { s.registers with c := value % 256 } }
  | RT_D => { s with registers := { s.registers with d := value % 256 } }
  | RT_E => { s with registers := { s.registers with e := value % 256 } }
  | RT_H => { s with registers := { s.registers with h := value % 256 } }
  | RT_L => { s with registers := { s.registers with l := value % 256 } }
  | RT_SP => { s with registers := { s.registers with sp := value } }
  | RT_PC => { s with registers := { s.registers with pc := value } }
  | RT_AF => { s with registers := { s.registers with
      a := (value &&& 0xFF00) >>> 8, f := value &&& 0x00FF } }
  | RT_BC => { s with registers := { s.registers with
      b := (value &&& 0xFF00) >>> 8, c := value &&& 0x00FF } }
  | RT_DE => { s with registers := { s.registers with
      d := (value &&& 0xFF00) >>> 8, e := value &&& 0x00FF } }
  | RT_HL => { s with registers := { s.registers with
      h := (value &&& 0xFF00) >>> 8, l := value &&& 0x00FF } }
  | _ => s

/-- The u16 `wrapping_sub(1)` used by `stack_push`.  (Kept irreducible so
that unification never tries to evaluate the modular arithmetic against an
abstract SP; `u16_dec_eq` recovers the definition.) -/
def u16_dec (x : Nat) : Nat := (x + 65535) % 65536

lemma u16_dec_eq (x : Nat) : u16_dec x = (x + 65535) % 65536 := rfl

attribute [irreducible] u16_dec

lemma u16_dec_dec (x : Nat) : u16_dec (u16_dec x) = (x + 65534) % 65536 := by
  simp only [u16_dec_eq]
  omega

lemma u16_dec_ne (x : Nat) : u16_dec x ≠ u16_dec (u16_dec x) := by
  simp only [u16_dec_eq]
  omega

/-- `bus_write` as seen from the CPU: update one byte of the bus. -/
def CPU.bus_write (s : CPU) (address data : Nat) : CPU :=
  { s with mem := fun a => if a = address then data else s.mem a }

/-- `CPU::stack_push`: decrement SP (`wrapping_sub(1)` on u16), then write
the byte at the new SP. -/
def CPU.stack_push (s : CPU) (data : Nat) : CPU :=
  let sp1 := u16_dec s.registers.sp
  ({ s with registers := { s.registers with sp := sp1 } }).bus_write sp1 data

/-- `CPU::stack_push16`: push the high byte, then the low byte. -/
def CPU.stack_push16 (s : CPU) (data : Nat) : CPU :=
  (s.stack_push ((data &&& 0xFF00) >>> 8)).stack_push (data &&& 0x00FF)

/-- `CPU::stack_pop`: read the byte at SP, then increment SP with the
*unchecked* `sp_val + 1`.  On u16 this is a program error when
SP = 0xFFFF (panic with overflow checks; never a wrap to 0), embedded as
`none`. -/
def CPU.stack_pop (s : CPU) : Option (Nat × CPU) :=
  let data := s.mem s.registers.sp
  if s.registers.sp + 1 < 65536 then
    some (data, { s with registers := { s.registers with sp := s.registers.sp + 1 } })
  else none

/-- `CPU::exec_pop`: pop low then high byte (each followed by a cycle
charge), assemble the 16-bit value, and write it to the 16-bit destination
register — with the low 4 bits forced to 0 for `POP AF`. -/
def CPU.exec_pop (s : CPU) (reg1 : RegType) : Option CPU :=
  (s.stack_pop).bind fun p1 =>
    (p1.2.stack_pop).bind fun p2 =>
      if reg1 = RT_AF then
        some (p2.2.set_register RT_AF (((p2.1 <<< 8) ||| p1.1) &&& 0xFFF0))
      else
        some (p2.2.set_register reg1 ((p2.1 <<< 8) ||| p1.1))

/-- `CPU::exec_halt`. -/
def CPU.exec_halt (s : CPU) : CPU := { s with halted := true }

/-- `CPU::exec_ei`: only schedules IME (`enabling_ime = true`). -/
def CPU.exec_ei (s : CPU) : CPU := { s with enabling_ime := true }

/-- `CPU::exec_di`. -/
def CPU.exec_di (s : CPU) : CPU := { s with interrupt_master_enabled := false }

/-- `set_interrupt_addr` (interrupts.rs): push PC, set PC to the vector. -/
def CPU.set_interrupt_addr (s : CPU) (address : Nat) : CPU :=
  let s1 := s.stack_push16 s.registers.pc
  { s1 with registers := { s1.registers with pc := address } }

/-- The body of the firing branch of `interrupt_check` (interrupts.rs):
push PC, jump to the vector, clear the serviced bit in IF (`& !int_type` on
u8 = `& (int_type ^ 0xFF)`), clear `halted`, clear IME. -/
def CPU.serviceAt (s : CPU) (address int_type : Nat) : CPU :=
  let s1 := s.set_interrupt_addr address
  { s1 with int_flags := s1.int_flags &&& (int_type ^^^ 0xFF),
            halted := false, interrupt_master_enabled := false }

/-- `interrupt_check` (interrupts.rs): if the interrupt bit is pending in IF
and enabled in IE, service it and report `true`. -/
def CPU.interrupt_check (s : CPU) (address int_type : Nat) : CPU × Bool :=
  if s.int_flags &&& int_type ≠ 0 ∧ s.ie_register &&& int_type ≠ 0 then
    (s.serviceAt address int_type, true)
  else (s, false)

/-- `handle_interrupts` (interrupts.rs): try the five interrupts in priority
order (VBLANK 0x40/bit 0, LCD_STAT 0x48/bit 1, TIMER 0x50/bit 2,
SERIAL 0x58/bit 3, JOYPAD 0x60/bit 4) — an else-if chain stopping at the
first `interrupt_check` that fires. -/
def CPU.handle_interrupts (s : CPU) : CPU :=
  match s.interrupt_check 0x40 0x1 with
  | (s1, true) => s1
  | (s1, false) =>
    match s1.interrupt_check 0x48 0x2 with
    | (s2, true) => s2
    | (s2, false) =>
      match s2.interrupt_check 0x50 0x4 with
      | (s3, true) => s3
      | (s3, false) =>
        match s3.interrupt_check 0x58 0x8 with
        | (s4, true) => s4
        | (s4, false) =>
          match s4.interrupt_check 0x60 0x10 with
          | (s5, _) => s5

/-- `CPU::step`, with fetch/decode/execute abstracted as `exec` (lines
1336–1367 of cpu.rs).  When not halted, run the instruction; when halted,
charge a cycle and wake iff `int_flags != 0` (IE is *not* consulted).  Then,
if IME is set, service pending interrupts and clear the deferred-EI flag;
finally, a still-set deferred-EI flag promotes to IME. -/
def CPU.step (exec : CPU → CPU) (s : CPU) : CPU :=
  let s1 :=
    if s.halted = false then exec s
    else if s.int_flags ≠ 0 then { s with halted := false } else s
  let s2 :=
    if s1.interrupt_master_enabled then
      { s1.handle_interrupts with enabling_ime := false }
    else s1
  if s2.enabling_ime then { s2 with interrupt_master_enabled := true } else s2

/-- C10: `CPU::stack_pop` reads the byte at SP and increments SP with the
unchecked `sp_val + 1`.  For SP < 0xFFFF it returns the byte at SP with SP
increased by exactly 1; for SP = 0xFFFF the u16 increment overflows — a
program error (panic), not a wrap to 0x0000 — embedded as `none`; and this
branch is reachable from the public interface, e.g. `CPU::exec_pop` (POP;
RET pops the same way). -/
theorem C10_theorem (s : CPU) :
    (s.registers.sp < 0xFFFF →
      s.stack_pop = some (s.mem s.registers.sp,
        { s with registers := { s.registers with sp := s.registers.sp + 1 } })) ∧
    (s.registers.sp = 0xFFFF → s.stack_pop = none) ∧
    (s.registers.sp = 0xFFFF → s.exec_pop RegType.RT_AF = none) := by
  refine ⟨?_, ?_, ?_⟩
  · intro h
    rw [CPU.stack_pop]
    simp only []
    rw [if_pos (by omega)]
  · intro h
    rw [CPU.stack_pop]
    simp only []
    rw [if_neg (by omega)]
  · intro h
    have hnone : s.stack_pop = none := by
      rw [CPU.stack_pop]
      simp only []
      rw [if_neg (by omega)]
    rw [CPU.exec_pop, hnone]
    rfl

/-- Post-boot CPU state with SP = 0xFFFF, reaching the overflow branch. -/
def c10sB : CPU :=
  { CPU_CTX with registers := { CPU_CTX.registers with sp := 0xFFFF } }

/-- Witness for `C10_theorem` at SP = 0xFFFE (normal pop) and SP = 0xFFFF
(overflowing pop, also through `exec_pop`). -/
theorem C10_witness :
    (CPU_CTX.registers.sp < 0xFFFF ∧ c10sB.registers.sp = 0xFFFF) ∧
    (CPU_CTX.stack_pop).isSome = true ∧
    c10sB.stack_pop = none ∧
    c10sB.exec_pop RegType.RT_AF = none :=
  ⟨⟨by decide, rfl⟩,
    by rw [(C10_theorem CPU_CTX).1 (by decide)]; rfl,
    (C10_theorem c10sB).2.1 rfl,
    (C10_theorem c10sB).2.2 rfl⟩

lemma and_15_eq (x : Nat) : x &&& 15 = x % 16 := by
  have := Nat.and_pow_two_sub_one_eq_mod x 4; norm_num at this; exact this

lemma xor_255_and_15 (flag : Nat) (hf : flag &&& 15 = 0) :
    (flag ^^^ 0xFF) &&& 15 = 15 := by
  apply Nat.eq_of_testBit_eq
  intro i
  have hbit : ∀ j, (flag.testBit j && (15 : Nat).testBit j) = false := by
    intro j
    rw [← Nat.testBit_and, hf, Nat.zero_testBit]
  rcases Nat.lt_or_ge i 4 with hi | hi
  · have h15 : (15 : Nat).testBit i = true := by interval_cases i <;> decide
    have hfl : flag.testBit i = false := by
      have := hbit i
      rw [h15, Bool.and_true] at this
      exact this
    have h255 : (255 : Nat).testBit i = true := by interval_cases i <;> decide
    simp [Nat.testBit_and, Nat.testBit_xor, hfl, h255, h15]
  · have h15 : (15 : Nat).testBit i = false :=
      Nat.testBit_lt_two_pow (lt_of_lt_of_le (by norm_num)
        (Nat.pow_le_pow_right (by norm_num) hi))
    simp [Nat.testBit_and, h15]

lemma set_flag_low_nibble (s : CPU) (flag : Nat) (v : Bool)
    (hf : flag &&& 15 = 0) :
    (s.set_flag flag v).registers.f % 16 = s.registers.f % 16 := by
  cases v
  · rw [CPU.set_flag, if_neg (by simp)]
    show (s.registers.f &&& (flag ^^^ 0xFF)) % 16 = s.registers.f % 16
    rw [← and_15_eq, ← and_15_eq, Nat.and_assoc, xor_255_and_15 flag hf]
  · rw [CPU.set_flag, if_pos rfl]
    show (s.registers.f ||| flag) % 16 = s.registers.f % 16
    rw [← and_15_eq, ← and_15_eq, or_and_distrib, hf, Nat.or_zero]

lemma set_flag_Z (s : CPU) (v : Bool) :
    (s.set_flag Z_FLAG v).registers.f % 16 = s.registers.f % 16 :=
  set_flag_low_nibble s Z_FLAG v (by decide)

lemma set_flag_N (s : CPU) (v : Bool) :
    (s.set_flag N_FLAG v).registers.f % 16 = s.registers.f % 16 :=
  set_flag_low_nibble s N_FLAG v (by decide)

lemma set_flag_H (s : CPU) (v : Bool) :
    (s.set_flag H_FLAG v).registers.f % 16 = s.registers.f % 16 :=
  set_flag_low_nibble s H_FLAG v (by decide)

lemma set_flag_C (s : CPU) (v : Bool) :
    (s.set_flag C_FLAG v).registers.f % 16 = s.registers.f % 16 :=
  set_flag_low_nibble s C_FLAG v (by decide)

/-- C5: the low nibble of F is an invariant of every F-writing operation of
the CPU.  Inspection of `cpu.rs` shows `registers.f` is written only by
`set_flag`/`set_flags` (all four flag masks live in the high nibble) and by
`set_register(RT_AF, …)`, whose only caller with `reg1 == RT_AF` is
`exec_pop`, which masks the popped value with 0xFFF0.  So: `set_flags`
leaves `F & 0x0F` unchanged (flag updates only touch the high nibble), a
completed POP AF forces `F & 0x0F = 0`, and the post-boot F (0xB0) already
satisfies the invariant — hence every reachable state does. -/
theorem C5_theorem :
    (∀ (s : CPU) (z n h c : Int),
      (s.set_flags z n h c).registers.f % 16 = s.registers.f % 16) ∧
    (∀ (s s2 : CPU), s.exec_pop RegType.RT_AF = some s2 →
      s2.registers.f % 16 = 0) ∧
    CPU_CTX.registers.f % 16 = 0 := by
  refine ⟨?_, ?_, by decide⟩
  · intro s z n h c
    simp only [CPU.set_flags]
    split_ifs <;> simp only [set_flag_Z, set_flag_N, set_flag_H, set_flag_C]
  · intro s s2 hp
    rw [CPU.exec_pop] at hp
    cases h1 : s.stack_pop with
    | none => rw [h1] at hp; exact absurd hp (by simp)
    | some p1 =>
      rw [h1, Option.some_bind] at hp
      cases h2 : p1.2.stack_pop with
      | none => rw [h2] at hp; exact absurd hp (by simp)
      | some p2 =>
        rw [h2, Option.some_bind, if_pos rfl, Option.some_inj] at hp
        subst hp
        show ((((p2.1 <<< 8) ||| p1.1) &&& 0xFFF0) &&& 0x00FF) % 16 = 0
        rw [← and_15_eq, Nat.and_assoc, Nat.and_assoc,
          show ((0xFFF0 : Nat) &&& (0x00FF &&& 15)) = 0 from rfl, Nat.and_zero]

/-- Concrete CPU state from which POP AF completes (SP = 0xFF00). -/
def c5s : CPU :=
  { CPU_CTX with registers := { CPU_CTX.registers with sp := 0xFF00 } }

/-- The state after POP AF from `c5s`. -/
def c5sres : CPU := (CPU.exec_pop c5s RegType.RT_AF).getD CPU_CTX

/-- Witness for `C5_theorem`: POP AF at the concrete state `c5s`. -/
theorem C5_witness :
    CPU.exec_pop c5s RegType.RT_AF = some c5sres ∧ c5sres.registers.f % 16 = 0 :=
  ⟨rfl, C5_theorem.2.1 c5s c5sres rfl⟩

lemma interrupt_check_pos (s : CPU) (a ty : Nat)
    (h : s.int_flags &&& ty ≠ 0 ∧ s.ie_register &&& ty ≠ 0) :
    s.interrupt_check a ty = (s.serviceAt a ty, true) := by
  rw [CPU.interrupt_check, if_pos h]

lemma interrupt_check_neg (s : CPU) (a ty : Nat)
    (h : ¬ (s.int_flags &&& ty ≠ 0 ∧ s.ie_register &&& ty ≠ 0)) :
    s.interrupt_check a ty = (s, false) := by
  rw [CPU.interrupt_check, if_neg h]

/-- The complete case analysis of `handle_interrupts`: the first interrupt
(in priority order bit 0 → bit 4) that is both pending and enabled is
serviced; with none, the state is unchanged. -/
lemma handle_interrupts_eq (s : CPU) :
    s.handle_interrupts =
      if s.int_flags &&& 0x1 ≠ 0 ∧ s.ie_register &&& 0x1 ≠ 0 then
        s.serviceAt 0x40 0x1
      else if s.int_flags &&& 0x2 ≠ 0 ∧ s.ie_register &&& 0x2 ≠ 0 then
        s.serviceAt 0x48 0x2
      else if s.int_flags &&& 0x4 ≠ 0 ∧ s.ie_register &&& 0x4 ≠ 0 then
        s.serviceAt 0x50 0x4
      else if s.int_flags &&& 0x8 ≠ 0 ∧ s.ie_register &&& 0x8 ≠ 0 then
        s.serviceAt 0x58 0x8
      else if s.int_flags &&& 0x10 ≠ 0 ∧ s.ie_register &&& 0x10 ≠ 0 then
        s.serviceAt 0x60 0x10
      else s := by
  by_cases c1 : s.int_flags &&& 0x1 ≠ 0 ∧ s.ie_register &&& 0x1 ≠ 0
  · rw [CPU.handle_interrupts, interrupt_check_pos s 0x40 0x1 c1, if_pos c1]
  · rw [CPU.handle_interrupts, interrupt_check_neg s 0x40 0x1 c1, if_neg c1]
    dsimp only
    by_cases c2 : s.int_flags &&& 0x2 ≠ 0 ∧ s.ie_register &&& 0x2 ≠ 0
    · rw [interrupt_check_pos s 0x48 0x2 c2, if_pos c2]
    · rw [interrupt_check_neg s 0x48 0x2 c2, if_neg c2]
      dsimp only
      by_cases c3 : s.int_flags &&& 0x4 ≠ 0 ∧ s.ie_register &&& 0x4 ≠ 0
      · rw [interrupt_check_pos s 0x50 0x4 c3, if_pos c3]
      · rw [interrupt_check_neg s 0x50 0x4 c3, if_neg c3]
        dsimp only
        by_cases c4 : s.int_flags &&& 0x8 ≠ 0 ∧ s.ie_register &&& 0x8 ≠ 0
        · rw [interrupt_check_pos s 0x58 0x8 c4, if_pos c4]
        · rw [interrupt_check_neg s 0x58 0x8 c4, if_neg c4]
          dsimp only
          by_cases c5 : s.int_flags &&& 0x10 ≠ 0 ∧ s.ie_register &&& 0x10 ≠ 0
          · rw [interrupt_check_pos s 0x60 0x10 c5, if_pos c5]
          · rw [interrupt_check_neg s 0x60 0x10 c5, if_neg c5]

lemma and_FF00_shr8 (x : Nat) (hx : x < 65536) :
    (x &&& 0xFF00) >>> 8 = x / 256 := by
  have h := and_mask_window x 8 8
  rw [show ((2 ^ 8 - 1) <<< 8 : Nat) = 0xFF00 from rfl] at h
  rw [h, Nat.shiftRight_eq_div_pow,
    Nat.mul_div_cancel _ (show (0 : Nat) < 2 ^ 8 by norm_num)]
  have h2 : x / 2 ^ 8 < 2 ^ 8 := by norm_num; omega
  rw [Nat.mod_eq_of_lt h2]
  norm_num

lemma and_FF_eq (x : Nat) : x &&& 0xFF = x % 256 := by
  have := Nat.and_pow_two_sub_one_eq_mod x 8
  norm_num at this
  exact this

set_option maxRecDepth 4000 in
/-- What one interrupt service does to the CPU state: PC pushed high byte
first, SP decreased by two (wrapping), PC at the vector, IME and halted
cleared, IF masked, everything else untouched. -/
lemma serviceAt_spec (s : CPU) (a ty : Nat) (hpc : s.registers.pc < 65536) :
    (s.serviceAt a ty).registers.pc = a ∧
    (s.serviceAt a ty).registers.sp = (s.registers.sp + 65534) % 65536 ∧
    (s.serviceAt a ty).mem ((s.registers.sp + 65535) % 65536) =
      s.registers.pc / 256 ∧
    (s.serviceAt a ty).mem ((s.registers.sp + 65534) % 65536) =
      s.registers.pc % 256 ∧
    (∀ ad, ad ≠ (s.registers.sp + 65535) % 65536 →
      ad ≠ (s.registers.sp + 65534) % 65536 →
      (s.serviceAt a ty).mem ad = s.mem ad) ∧
    (s.serviceAt a ty).int_flags = s.int_flags &&& (ty ^^^ 0xFF) ∧
    (s.serviceAt a ty).interrupt_master_enabled = false ∧
    (s.serviceAt a ty).halted = false ∧
    (s.serviceAt a ty).enabling_ime = s.enabling_ime ∧
    (s.serviceAt a ty).ie_register = s.ie_register ∧
    (s.serviceAt a ty).registers.a = s.registers.a ∧
    (s.serviceAt a ty).registers.f = s.registers.f ∧
    (s.serviceAt a ty).registers.b = s.registers.b ∧
    (s.serviceAt a ty).registers.c = s.registers.c ∧
    (s.serviceAt a ty).registers.d = s.registers.d ∧
    (s.serviceAt a ty).registers.e = s.registers.e ∧
    (s.serviceAt a ty).registers.h = s.registers.h ∧
    (s.serviceAt a ty).registers.l = s.registers.l := by
  refine ⟨rfl, u16_dec_dec s.registers.sp, ?_, ?_, ?_, rfl, rfl, rfl, rfl, rfl,
    rfl, rfl, rfl, rfl, rfl, rfl, rfl, rfl⟩
  · rw [← u16_dec_eq]
    dsimp only [CPU.serviceAt, CPU.set_interrupt_addr, CPU.stack_push16,
      CPU.stack_push, CPU.bus_write]
    rw [if_neg (u16_dec_ne s.registers.sp), if_pos rfl]
    exact and_FF00_shr8 s.registers.pc hpc
  · rw [← u16_dec_dec]
    dsimp only [CPU.serviceAt, CPU.set_interrupt_addr, CPU.stack_push16,
      CPU.stack_push, CPU.bus_write]
    rw [if_pos rfl]
    exact and_FF_eq s.registers.pc
  · intro ad h1 h2
    rw [← u16_dec_eq] at h1
    rw [← u16_dec_dec] at h2
    dsimp only [CPU.serviceAt, CPU.set_interrupt_addr, CPU.stack_push16,
      CPU.stack_push, CPU.bus_write]
    rw [if_neg h2, if_neg h1]

lemma clear_bit_testBit (x k j : Nat) (hk : k < 8) :
    (x &&& (2 ^ k ^^^ 0xFF)).testBit j =
      if j = k then false else (x.testBit j && decide (j < 8)) := by
  rw [Nat.testBit_and, Nat.testBit_xor]
  have h255 : (255 : Nat).testBit j = decide (j < 8) := by
    rcases Nat.lt_or_ge j 8 with h | h
    · interval_cases j <;> decide
    · have h255lt : (255 : Nat) < 2 ^ j :=
        lt_of_lt_of_le (show (255 : Nat) < 2 ^ 8 by norm_num)
          (Nat.pow_le_pow_right (by norm_num) h)
      simp [Nat.testBit_lt_two_pow h255lt, Nat.not_lt.mpr h]
  rw [h255, Nat.testBit_two_pow]
  by_cases hj : j = k
  · subst hj
    simp [hk]
  · have hkj : ¬ (k = j) := fun hkj => hj hkj.symm
    simp only [hkj, decide_False, if_neg hj]
    cases x.testBit j <;> cases (decide (j < 8)) <;> rfl

lemma clear_bit_self (x k : Nat) (hk : k < 8) :
    (x &&& (2 ^ k ^^^ 0xFF)).testBit k = false := by
  rw [clear_bit_testBit x k k hk, if_pos rfl]

lemma clear_bit_other (x k j : Nat) (hk : k < 8) (hx : x < 256) (hj : j ≠ k) :
    (x &&& (2 ^ k ^^^ 0xFF)).testBit j = x.testBit j := by
  rw [clear_bit_testBit x k j hk, if_neg hj]
  rcases Nat.lt_or_ge j 8 with h | h
  · simp [h]
  · have hxlt : x < 2 ^ j :=
      lt_of_lt_of_le hx (le_trans (show (256 : Nat) ≤ 2 ^ 8 by norm_num)
        (Nat.pow_le_pow_right (by norm_num) h))
    simp [Nat.testBit_lt_two_pow hxlt]

lemma cond_false_of_pending_bit (x y m : Nat) (h : (x &&& y).testBit m = false) :
    ¬ (x &&& 2 ^ m ≠ 0 ∧ y &&& 2 ^ m ≠ 0) := by
  rintro ⟨ha, hb⟩
  rw [and_two_pow_ne_zero] at ha hb
  rw [Nat.testBit_and, ha, hb] at h
  simp at h

lemma cond_true_of_pending_bit (x y m : Nat) (h : (x &&& y).testBit m = true) :
    x &&& 2 ^ m ≠ 0 ∧ y &&& 2 ^ m ≠ 0 := by
  rw [Nat.testBit_and, Bool.and_eq_true] at h
  exact ⟨(and_two_pow_ne_zero x m).mpr h.1, (and_two_pow_ne_zero y m).mpr h.2⟩

/-- When bit `k` is the highest-priority (lowest-index) interrupt that is
both pending and enabled, `handle_interrupts` services exactly it. -/
lemma handle_fires (s : CPU) (k : Nat) (hk : k < 5)
    (hbit : (s.int_flags &&& s.ie_register).testBit k = true)
    (hmin : ∀ j, j < k → (s.int_flags &&& s.ie_register).testBit j = false) :
    s.handle_interrupts = s.serviceAt (64 + 8 * k) (2 ^ k) := by
  interval_cases k
  · rw [handle_interrupts_eq,
      if_pos (show s.int_flags &&& 1 ≠ 0 ∧ s.ie_register &&& 1 ≠ 0 from
        cond_true_of_pending_bit _ _ 0 hbit)]
    norm_num
  · rw [handle_interrupts_eq,
      if_neg (show ¬ (s.int_flags &&& 1 ≠ 0 ∧ s.ie_register &&& 1 ≠ 0) from
        cond_false_of_pending_bit _ _ 0 (hmin 0 (by norm_num))),
      if_pos (show s.int_flags &&& 2 ≠ 0 ∧ s.ie_register &&& 2 ≠ 0 from
        cond_true_of_pending_bit _ _ 1 hbit)]
    norm_num
  · rw [handle_interrupts_eq,
      if_neg (show ¬ (s.int_flags &&& 1 ≠ 0 ∧ s.ie_register &&& 1 ≠ 0) from
        cond_false_of_pending_bit _ _ 0 (hmin 0 (by norm_num))),
      if_neg (show ¬ (s.int_flags &&& 2 ≠ 0 ∧ s.ie_register &&& 2 ≠ 0) from
        cond_false_of_pending_bit _ _ 1 (hmin 1 (by norm_num))),
      if_pos (show s.int_flags &&& 4 ≠ 0 ∧ s.ie_register &&& 4 ≠ 0 from
        cond_true_of_pending_bit _ _ 2 hbit)]
    norm_num
  · rw [handle_interrupts_eq,
      if_neg (show ¬ (s.int_flags &&& 1 ≠ 0 ∧ s.ie_register &&& 1 ≠ 0) from
        cond_false_of_pending_bit _ _ 0 (hmin 0 (by norm_num))),
      if_neg (show ¬ (s.int_flags &&& 2 ≠ 0 ∧ s.ie_register &&& 2 ≠ 0) from
        cond_false_of_pending_bit _ _ 1 (hmin 1 (by norm_num))),
      if_neg (show ¬ (s.int_flags &&& 4 ≠ 0 ∧ s.ie_register &&& 4 ≠ 0) from
        cond_false_of_pending_bit _ _ 2 (hmin 2 (by norm_num))),
      if_pos (show s.int_flags &&& 8 ≠ 0 ∧ s.ie_register &&& 8 ≠ 0 from
        cond_true_of_pending_bit _ _ 3 hbit)]
    norm_num
  · rw [handle_interrupts_eq,
      if_neg (show ¬ (s.int_flags &&& 1 ≠ 0 ∧ s.ie_register &&& 1 ≠ 0) from
        cond_false_of_pending_bit _ _ 0 (hmin 0 (by norm_num))),
      if_neg (show ¬ (s.int_flags &&& 2 ≠ 0 ∧ s.ie_register &&& 2 ≠ 0) from
        cond_false_of_pending_bit _ _ 1 (hmin 1 (by norm_num))),
      if_neg (show ¬ (s.int_flags &&& 4 ≠ 0 ∧ s.ie_register &&& 4 ≠ 0) from
        cond_false_of_pending_bit _ _ 2 (hmin 2 (by norm_num))),
      if_neg (show ¬ (s.int_flags &&& 8 ≠ 0 ∧ s.ie_register &&& 8 ≠ 0) from
        cond_false_of_pending_bit _ _ 3 (hmin 3 (by norm_num))),
      if_pos (show s.int_flags &&& 16 ≠ 0 ∧ s.ie_register &&& 16 ≠ 0 from
        cond_true_of_pending_bit _ _ 4 hbit)]
    norm_num

/-- C7: when interrupt bit `k` (priority order bit 0 → bit 4, vectors 0x40,
0x48, 0x50, 0x58, 0x60) is the highest-priority bit set in both IE and IF,
servicing pushes the current PC (high byte first, at SP-1 then SP-2), sets
PC to the vector, clears exactly bit `k` of IF, clears IME, clears the
halted flag, and leaves every other IF bit, all data registers, IE, the
deferred-EI flag and all other memory unchanged. -/
theorem C7_theorem (s : CPU) (k : Nat) (hk : k < 5)
    (hbit : (s.int_flags &&& s.ie_register).testBit k = true)
    (hmin : ∀ j, j < k → (s.int_flags &&& s.ie_register).testBit j = false)
    (hpc : s.registers.pc < 65536) (hif : s.int_flags < 256) :
    (s.handle_interrupts).registers.pc = 64 + 8 * k ∧
    (s.handle_interrupts).registers.sp = (s.registers.sp + 65534) % 65536 ∧
    (s.handle_interrupts).mem ((s.registers.sp + 65535) % 65536) =
      s.registers.pc / 256 ∧
    (s.handle_interrupts).mem ((s.registers.sp + 65534) % 65536) =
      s.registers.pc % 256 ∧
    (∀ ad, ad ≠ (s.registers.sp + 65535) % 65536 →
      ad ≠ (s.registers.sp + 65534) % 65536 →
      (s.handle_interrupts).mem ad = s.mem ad) ∧
    (s.handle_interrupts).int_flags.testBit k = false ∧
    (∀ j, j ≠ k → (s.handle_interrupts).int_flags.testBit j =
      s.int_flags.testBit j) ∧
    (s.handle_interrupts).interrupt_master_enabled = false ∧
    (s.handle_interrupts).halted = false ∧
    (s.handle_interrupts).enabling_ime = s.enabling_ime ∧
    (s.handle_interrupts).ie_register = s.ie_register ∧
    (s.handle_interrupts).registers.a = s.registers.a ∧
    (s.handle_interrupts).registers.f = s.registers.f ∧
    (s.handle_interrupts).registers.b = s.registers.b ∧
    (s.handle_interrupts).registers.c = s.registers.c ∧
    (s.handle_interrupts).registers.d = s.registers.d ∧
    (s.handle_interrupts).registers.e = s.registers.e ∧
    (s.handle_interrupts).registers.h = s.registers.h ∧
    (s.handle_interrupts).registers.l = s.registers.l := by
  have hk8 : k < 8 := by omega
  rw [handle_fires s k hk hbit hmin]
  obtain ⟨p1, p2, p3, p4, p5, p6, p7, p8, p9, p10, p11, p12, p13, p14, p15,
    p16, p17, p18⟩ := serviceAt_spec s (64 + 8 * k) (2 ^ k) hpc
  refine ⟨p1, p2, p3, p4, p5, ?_, ?_, p7, p8, p9, p10, p11, p12, p13, p14,
    p15, p16, p17, p18⟩
  · rw [p6]
    exact clear_bit_self s.int_flags k hk8
  · intro j hj
    rw [p6]
    exact clear_bit_other s.int_flags k j hk8 hif hj

/-- Concrete state for the `C7_theorem` witness: TIMER (bit 2) pending and
enabled, IME set, at PC = 0x150 with SP = 0xFFFE. -/
def c7s : CPU :=
  { CPU_CTX with
    interrupt_master_enabled := true
    int_flags := 0x4
    ie_register := 0x4
    registers := { CPU_CTX.registers with pc := 0x150 } }

/-- Witness for `C7_theorem`: servicing the TIMER interrupt at `c7s` jumps
to vector 0x50. -/
theorem C7_witness :
    ((c7s.int_flags &&& c7s.ie_register).testBit 2 = true ∧
      c7s.registers.pc < 65536 ∧ c7s.int_flags < 256) ∧
    (c7s.handle_interrupts).registers.pc = 0x50 :=
  ⟨⟨by decide, by decide, by decide⟩,
    (C7_theorem c7s 2 (by decide) (by decide)
      (by intro j hj; interval_cases j <;> decide) (by decide) (by decide)).1⟩

lemma handle_halted (s : CPU) (h : s.halted = false) :
    (s.handle_interrupts).halted = false := by
  rw [handle_interrupts_eq]
  split_ifs <;> first | rfl | exact h

lemma handle_int_flags_zero (s : CPU) (h0 : s.int_flags = 0) :
    s.handle_interrupts = s := by
  rw [handle_interrupts_eq]
  simp [h0]

lemma step_halted_stays (exec : CPU → CPU) (s : CPU) (h : s.halted = true)
    (h0 : s.int_flags = 0) : (CPU.step exec s).halted = true := by
  rw [CPU.step,
    if_neg (show ¬ (s.halted = false) from by simp [h]),
    if_neg (show ¬ (s.int_flags ≠ 0) from by simp [h0])]
  split_ifs <;> simp [h, handle_int_flags_zero s h0]

lemma step_halted_wakes (exec : CPU → CPU) (s : CPU) (h : s.halted = true)
    (h0 : s.int_flags ≠ 0) : (CPU.step exec s).halted = false := by
  rw [CPU.step,
    if_neg (show ¬ (s.halted = false) from by simp [h]),
    if_pos (show s.int_flags ≠ 0 from h0)]
  have hh := handle_halted ({ s with halted := false } : CPU) rfl
  split_ifs <;> simp_all

/-- Concrete halted state with a request in IF (bit 0) but IE = 0. -/
def c2s : CPU :=
  { CPU_CTX with
    halted := true
    int_flags := 0x1
    ie_register := 0x0 }

/-- C2 counterexample: `c2s` is halted with `IE & IF = 0`, so the claim says
a step leaves it halted — but the halted branch of `CPU::step` tests only
`int_flags != 0` and wakes the CPU. -/
theorem C2_counterexample :
    c2s.halted = true ∧ c2s.ie_register &&& c2s.int_flags = 0 ∧
    (CPU.step id c2s).halted = false := by
  refine ⟨rfl, rfl, ?_⟩
  exact step_halted_wakes id c2s rfl (by decide)

/-- C2 amended: a halted CPU wakes on a step exactly when some bit of IF is
set — IE is not consulted (and IME is irrelevant).  In particular a pending
and enabled interrupt (IE & IF ≠ 0) still wakes it, but so does a request
that is not enabled. -/
theorem C2_amended (exec : CPU → CPU) (s : CPU) (h : s.halted = true) :
    (CPU.step exec s).halted = false ↔ s.int_flags ≠ 0 := by
  constructor
  · intro hw
    by_contra h0
    rw [step_halted_stays exec s h h0] at hw
    exact absurd hw (by simp)
  · intro h0
    exact step_halted_wakes exec s h h0

/-- Witness for `C2_amended`: a halted CPU with IF = 0x4 wakes. -/
theorem C2_witness :
    ({ CPU_CTX with halted := true, int_flags := 0x4 } : CPU).halted = true ∧
    (CPU.step id { CPU_CTX with halted := true, int_flags := 0x4 }).halted = false :=
  ⟨rfl, (C2_amended id { CPU_CTX with halted := true, int_flags := 0x4 } rfl).mpr
    (by decide)⟩

lemma exists_least_bit_lt_32 (p : Nat) (hp : p ≠ 0) (hlt : p < 32) :
    ∃ k, k < 5 ∧ p.testBit k = true ∧ ∀ j, j < k → p.testBit j = false := by
  by_cases h0 : p.testBit 0 = true
  · exact ⟨0, by norm_num, h0, fun j hj => absurd hj (Nat.not_lt_zero j)⟩
  by_cases h1 : p.testBit 1 = true
  · exact ⟨1, by norm_num, h1, fun j hj => by
      interval_cases j
      simpa using h0⟩
  by_cases h2 : p.testBit 2 = true
  · exact ⟨2, by norm_num, h2, fun j hj => by
      interval_cases j
      · simpa using h0
      · simpa using h1⟩
  by_cases h3 : p.testBit 3 = true
  · exact ⟨3, by norm_num, h3, fun j hj => by
      interval_cases j
      · simpa using h0
      · simpa using h1
      · simpa using h2⟩
  by_cases h4 : p.testBit 4 = true
  · exact ⟨4, by norm_num, h4, fun j hj => by
      interval_cases j
      · simpa using h0
      · simpa using h1
      · simpa using h2
      · simpa using h3⟩
  exfalso
  apply hp
  apply Nat.eq_of_testBit_eq
  intro i
  rw [Nat.zero_testBit]
  rcases Nat.lt_or_ge i 5 with hi | hi
  · interval_cases i
    · simpa using h0
    · simpa using h1
    · simpa using h2
    · simpa using h3
    · simpa using h4
  · exact Nat.testBit_lt_two_pow (lt_of_lt_of_le hlt
      (le_trans (show (32 : Nat) ≤ 2 ^ 5 by norm_num)
        (Nat.pow_le_pow_right (by norm_num) hi)))

/-- The fetch-and-execute of the one-byte `EI` instruction: fetch advances
PC by one (the unchecked `pc += 1` of `increment_pc`); `exec_ei` only sets
the deferred flag `enabling_ime`. -/
def EI_instr (s : CPU) : CPU :=
  CPU.exec_ei { s with registers := { s.registers with pc := s.registers.pc + 1 } }

/-- C6: from a state with IME clear and an interrupt pending and enabled,
the `EI` step services nothing — PC just moves to the next instruction, IF
and the stack are untouched — and IME becomes set only at the end of that
step.  On the next step, any instruction `f` that does not itself touch the
interrupt state executes first and only then is the interrupt serviced: the
step equals `handle_interrupts` applied to the post-`f` state, IME ends
cleared, PC ends at the vector of the highest-priority pending bit, and the
pushed return address is the PC after `f` completed. -/
theorem C6_theorem (s : CPU)
    (h1 : s.interrupt_master_enabled = false) (h2 : s.enabling_ime = false)
    (h3 : s.halted = false)
    (h4 : s.int_flags &&& s.ie_register ≠ 0) (h5 : s.int_flags < 32) :
    (CPU.step EI_instr s).registers.pc = s.registers.pc + 1 ∧
    (CPU.step EI_instr s).int_flags = s.int_flags ∧
    (CPU.step EI_instr s).mem = s.mem ∧
    (CPU.step EI_instr s).registers.sp = s.registers.sp ∧
    (CPU.step EI_instr s).interrupt_master_enabled = true ∧
    (CPU.step EI_instr s).halted = false ∧
    (∀ f : CPU → CPU,
      (f (CPU.step EI_instr s)).interrupt_master_enabled = true →
      (f (CPU.step EI_instr s)).halted = false →
      (f (CPU.step EI_instr s)).int_flags = s.int_flags →
      (f (CPU.step EI_instr s)).ie_register = s.ie_register →
      (f (CPU.step EI_instr s)).registers.pc < 65536 →
      CPU.step f (CPU.step EI_instr s) =
        { (f (CPU.step EI_instr s)).handle_interrupts with
          enabling_ime := false } ∧
      (CPU.step f (CPU.step EI_instr s)).interrupt_master_enabled = false ∧
      ∃ k, k < 5 ∧ (s.int_flags &&& s.ie_register).testBit k = true ∧
        (∀ j, j < k → (s.int_flags &&& s.ie_register).testBit j = false) ∧
        (CPU.step f (CPU.step EI_instr s)).registers.pc = 64 + 8 * k ∧
        (CPU.step f (CPU.step EI_instr s)).mem
            (((f (CPU.step EI_instr s)).registers.sp + 65535) % 65536) =
          (f (CPU.step EI_instr s)).registers.pc / 256 ∧
        (CPU.step f (CPU.step EI_instr s)).mem
            (((f (CPU.step EI_instr s)).registers.sp + 65534) % 65536) =
          (f (CPU.step EI_instr s)).registers.pc % 256) := by
  have hstep : CPU.step EI_instr s =
      { EI_instr s with interrupt_master_enabled := true } := by
    rw [CPU.step, if_pos h3,
      if_neg (show ¬ ((EI_instr s).interrupt_master_enabled = true) from by
        simp [EI_instr, CPU.exec_ei, h1])]
    rw [if_pos (show (EI_instr s).enabling_ime = true from rfl)]
  refine ⟨by rw [hstep] <;> rfl, by rw [hstep] <;> rfl, by rw [hstep] <;> rfl,
    by rw [hstep] <;> rfl, by rw [hstep] <;> rfl, by rw [hstep] <;> exact h3, ?_⟩
  intro f hf1 hf2 hf3 hf4 hfpc
  have hs1h : (CPU.step EI_instr s).halted = false := by
    rw [hstep]
    exact h3
  have hstep2 : CPU.step f (CPU.step EI_instr s) =
      { (f (CPU.step EI_instr s)).handle_interrupts with
        enabling_ime := false } := by
    rw [CPU.step, if_pos hs1h, if_pos hf1, if_neg (by simp)]
  have hple : s.int_flags &&& s.ie_register < 32 :=
    lt_of_le_of_lt Nat.and_le_left h5
  obtain ⟨k, hk5, hkbit, hkmin⟩ :=
    exists_least_bit_lt_32 (s.int_flags &&& s.ie_register) h4 hple
  have hpend : (f (CPU.step EI_instr s)).int_flags &&&
      (f (CPU.step EI_instr s)).ie_register = s.int_flags &&& s.ie_register := by
    rw [hf3, hf4]
  have hfire := handle_fires (f (CPU.step EI_instr s)) k hk5
    (by rw [hpend]; exact hkbit) (by rw [hpend]; exact hkmin)
  obtain ⟨p1, p2, p3, p4, p5, p6, p7, p8, p9, p10, p11, p12, p13, p14, p15,
    p16, p17, p18⟩ :=
    serviceAt_spec (f (CPU.step EI_instr s)) (64 + 8 * k) (2 ^ k) hfpc
  refine ⟨hstep2, ?_, k, hk5, hkbit, hkmin, ?_, ?_, ?_⟩
  · rw [hstep2]
    show (f (CPU.step EI_instr s)).handle_interrupts.interrupt_master_enabled
      = false
    rw [hfire]
    exact p7
  · rw [hstep2]
    show (f (CPU.step EI_instr s)).handle_interrupts.registers.pc = 64 + 8 * k
    rw [hfire]
    exact p1
  · rw [hstep2]
    show (f (CPU.step EI_instr s)).handle_interrupts.mem _ = _
    rw [hfire]
    exact p3
  · rw [hstep2]
    show (f (CPU.step EI_instr s)).handle_interrupts.mem _ = _
    rw [hfire]
    exact p4

/-- Concrete state for the `C6_witness`: IME clear, VBLANK pending and
enabled. -/
def c6s : CPU :=
  { CPU_CTX with
    int_flags := 0x1
    ie_register := 0x1 }

/-- Witness for `C6_theorem` at `c6s`: the EI step does not service the
pending interrupt (IF is unchanged) and sets IME. -/
theorem C6_witness :
    (c6s.interrupt_master_enabled = false ∧ c6s.enabling_ime = false ∧
      c6s.halted = false ∧ c6s.int_flags &&& c6s.ie_register ≠ 0 ∧
      c6s.int_flags < 32) ∧
    ((CPU.step EI_instr c6s).int_flags = c6s.int_flags ∧
      (CPU.step EI_instr c6s).interrupt_master_enabled = true) :=
  ⟨⟨rfl, rfl, rfl, by decide, by decide⟩,
    (C6_theorem c6s rfl rfl rfl (by decide) (by decide)).2.1,
    (C6_theorem c6s rfl rfl rfl (by decide) (by decide)).2.2.2.2.1⟩

end GB
